import Mathlib

/-!
Shallow embedding of the escape-room operator app (`src/src/App.jsx`).

The app is a client-only React component; all state the specification talks
about lives in React `useState` cells.  The embedding models that state as an
explicit record (`AppState`) and each user-triggered handler of the source
(`handleUseHint`, `handleAdminLogin`, the bonus top-up button, `handleAddHint`,
`handleDeleteHint`, `handleStart`) as a pure function from the state and the
relevant form inputs to the new state together with an explicit result
describing which source branch was taken (which `alert` fired, or success).
JS numbers are modelled as rationals (`ℚ`); the wall clock (`Date.now()`,
the 250 ms interval callback) is passed in explicitly as a time argument.
Strings are Lean `String`s; `trim`/`toUpperCase` are modelled on the ASCII
fragment (the code points the app's hint codes and admin code use).
Presentation-only concerns (styles, the popup window itself, the `?hint=`
URL) own no state and are outside the model; the popup-blocked `alert` on the
success path of `handleUseHint` is likewise presentation-side and not a
validation failure.
-/

namespace EscapeRoom

/-! ### JS string primitives (ASCII fragment) -/

/-- Whitespace as `String.prototype.trim` removes it, restricted to the ASCII
whitespace code points (space, tab, line feed, carriage return). -/
def jsIsSpace (c : Char) : Bool :=
  c.toNat = 32 || c.toNat = 9 || c.toNat = 10 || c.toNat = 13

/-- One character of `String.prototype.toUpperCase`, on the ASCII fragment:
`a`..`z` map to `A`..`Z`, everything else is unchanged. -/
def jsCharToUpper (c : Char) : Char :=
  if 97 ≤ c.toNat ∧ c.toNat ≤ 122 then Char.ofNat (c.toNat - 32) else c

/-- `String.prototype.trim` on a character list: drop whitespace from both
ends. -/
def jsTrimList (l : List Char) : List Char :=
  ((l.dropWhile jsIsSpace).reverse.dropWhile jsIsSpace).reverse

/-- `String.prototype.trim`. -/
def jsTrim (s : String) : String := ⟨jsTrimList s.data⟩

/-- `normalizeCode` from App.jsx: `(code || "").trim().toUpperCase()`.
(`code || ""` only replaces a missing value by the empty string, which trims
and upper-cases to itself.) -/
def normalizeCode (s : String) : String :=
  ⟨(jsTrimList s.data).map jsCharToUpper⟩

/-! ### Facts about the string primitives -/

theorem toNat_ofNat_upper (n : ℕ) (h1 : 97 ≤ n) (h2 : n ≤ 122) :
    (Char.ofNat (n - 32)).toNat = n - 32 := by
  interval_cases n <;> decide

theorem jsCharToUpper_toNat (c : Char) (h1 : 97 ≤ c.toNat) (h2 : c.toNat ≤ 122) :
    (jsCharToUpper c).toNat = c.toNat - 32 := by
  unfold jsCharToUpper
  rw [if_pos ⟨h1, h2⟩]
  exact toNat_ofNat_upper c.toNat h1 h2

theorem jsCharToUpper_eq_self (c : Char) (h : ¬(97 ≤ c.toNat ∧ c.toNat ≤ 122)) :
    jsCharToUpper c = c := by
  unfold jsCharToUpper
  rw [if_neg h]

theorem jsCharToUpper_idem (c : Char) :
    jsCharToUpper (jsCharToUpper c) = jsCharToUpper c := by
  by_cases h : 97 ≤ c.toNat ∧ c.toNat ≤ 122
  · have hv : (jsCharToUpper c).toNat = c.toNat - 32 := jsCharToUpper_toNat c h.1 h.2
    exact jsCharToUpper_eq_self _ (by omega)
  · rw [jsCharToUpper_eq_self c h]
    exact jsCharToUpper_eq_self c h

theorem jsIsSpace_jsCharToUpper (c : Char) :
    jsIsSpace (jsCharToUpper c) = jsIsSpace c := by
  by_cases h : 97 ≤ c.toNat ∧ c.toNat ≤ 122
  · have hv : (jsCharToUpper c).toNat = c.toNat - 32 := jsCharToUpper_toNat c h.1 h.2
    have h1 : jsIsSpace (jsCharToUpper c) = false := by
      unfold jsIsSpace
      rw [hv]
      simp only [Bool.or_eq_false_iff, decide_eq_false_iff_not]
      omega
    have h2 : jsIsSpace c = false := by
      unfold jsIsSpace
      simp only [Bool.or_eq_false_iff, decide_eq_false_iff_not]
      omega
    rw [h1, h2]
  · rw [jsCharToUpper_eq_self c h]

theorem dropWhile_dropWhile_self (p : Char → Bool) (l : List Char) :
    (l.dropWhile p).dropWhile p = l.dropWhile p := by
  induction l with
  | nil => rfl
  | cons x xs ih =>
    by_cases h : p x
    · rw [List.dropWhile_cons_of_pos h]
      exact ih
    · rw [List.dropWhile_cons_of_neg h, List.dropWhile_cons_of_neg h]

theorem dropWhile_cons_head (p : Char → Bool) (l : List Char) (x : Char)
    (xs : List Char) (h : l.dropWhile p = x :: xs) : p x = false := by
  have hh := List.head?_dropWhile_not p l
  rw [h] at hh
  exact hh

theorem dropWhile_append_all (p : Char → Bool) (w l : List Char)
    (hw : ∀ c ∈ w, p c = true) : (w ++ l).dropWhile p = l.dropWhile p := by
  induction w with
  | nil => rfl
  | cons x xs ih =>
    rw [List.cons_append, List.dropWhile_cons_of_pos (by simp [hw x (by simp)])]
    exact ih fun c hc => hw c (by simp [hc])

theorem dropWhile_all (p : Char → Bool) (w : List Char)
    (hw : ∀ c ∈ w, p c = true) : w.dropWhile p = [] := by
  have h := dropWhile_append_all p w [] hw
  simpa using h

theorem dropWhile_map_same (p : Char → Bool) (f : Char → Char)
    (hf : ∀ c, p (f c) = p c) (l : List Char) :
    (l.map f).dropWhile p = (l.dropWhile p).map f := by
  rw [List.dropWhile_map]
  congr 1
  apply congrArg (l.dropWhile ·)
  funext c
  exact hf c

theorem jsTrimList_map (f : Char → Char) (hf : ∀ c, jsIsSpace (f c) = jsIsSpace c)
    (l : List Char) : jsTrimList (l.map f) = (jsTrimList l).map f := by
  unfold jsTrimList
  rw [dropWhile_map_same _ _ hf, ← List.map_reverse, dropWhile_map_same _ _ hf,
    ← List.map_reverse]

theorem jsTrimList_head_false (l : List Char) (c : Char) (cs : List Char)
    (h : jsTrimList l = c :: cs) : jsIsSpace c = false := by
  have ha : l.dropWhile jsIsSpace = jsTrimList l ++
      ((l.dropWhile jsIsSpace).reverse.takeWhile jsIsSpace).reverse := by
    have h1 := List.takeWhile_append_dropWhile (p := jsIsSpace)
      (l := (l.dropWhile jsIsSpace).reverse)
    calc l.dropWhile jsIsSpace
        = (l.dropWhile jsIsSpace).reverse.reverse := (List.reverse_reverse _).symm
      _ = ((l.dropWhile jsIsSpace).reverse.takeWhile jsIsSpace ++
            (l.dropWhile jsIsSpace).reverse.dropWhile jsIsSpace).reverse := by rw [h1]
      _ = jsTrimList l ++
            ((l.dropWhile jsIsSpace).reverse.takeWhile jsIsSpace).reverse := by
            rw [List.reverse_append]
            rfl
  rw [h, List.cons_append] at ha
  exact dropWhile_cons_head jsIsSpace l c _ ha

theorem jsTrimList_idem (l : List Char) :
    jsTrimList (jsTrimList l) = jsTrimList l := by
  have h1 : (jsTrimList l).dropWhile jsIsSpace = jsTrimList l := by
    cases hr : jsTrimList l with
    | nil => rfl
    | cons c cs =>
      exact List.dropWhile_cons_of_neg (by simp [jsTrimList_head_false l c cs hr])
  show (((jsTrimList l).dropWhile jsIsSpace).reverse.dropWhile jsIsSpace).reverse
      = jsTrimList l
  rw [h1]
  show ((((l.dropWhile jsIsSpace).reverse.dropWhile jsIsSpace).reverse).reverse.dropWhile
      jsIsSpace).reverse = jsTrimList l
  rw [List.reverse_reverse, dropWhile_dropWhile_self]
  rfl

theorem jsTrimList_pad (w1 w2 l : List Char)
    (h1 : ∀ c ∈ w1, jsIsSpace c = true) (h2 : ∀ c ∈ w2, jsIsSpace c = true) :
    jsTrimList (w1 ++ l ++ w2) = jsTrimList l := by
  have key : ∀ m : List Char,
      ((m ++ w2).dropWhile jsIsSpace).reverse.dropWhile jsIsSpace
        = (m.dropWhile jsIsSpace).reverse.dropWhile jsIsSpace := by
    intro m
    induction m with
    | nil =>
      rw [List.nil_append, List.dropWhile_nil, List.reverse_nil,
        dropWhile_all jsIsSpace w2 h2]
      rfl
    | cons x xs ih =>
      by_cases hx : jsIsSpace x
      · rw [List.cons_append, List.dropWhile_cons_of_pos hx,
          List.dropWhile_cons_of_pos hx]
        exact ih
      · rw [List.cons_append, List.dropWhile_cons_of_neg hx,
          List.dropWhile_cons_of_neg hx, List.reverse_cons, List.reverse_cons]
        have hsplit : (xs ++ w2).reverse ++ [x] = w2.reverse ++ (xs.reverse ++ [x]) := by
          rw [List.reverse_append, List.append_assoc]
        rw [hsplit, dropWhile_append_all jsIsSpace w2.reverse (xs.reverse ++ [x])
          (fun c hc => h2 c (List.mem_reverse.mp hc))]
  show (((w1 ++ l ++ w2).dropWhile jsIsSpace).reverse.dropWhile jsIsSpace).reverse
      = jsTrimList l
  rw [List.append_assoc, dropWhile_append_all jsIsSpace w1 (l ++ w2) h1, key l]
  rfl

theorem normalizeCode_idem (s : String) :
    normalizeCode (normalizeCode s) = normalizeCode s := by
  unfold normalizeCode
  congr 1
  show (jsTrimList ((jsTrimList s.data).map jsCharToUpper)).map jsCharToUpper
      = (jsTrimList s.data).map jsCharToUpper
  rw [jsTrimList_map jsCharToUpper jsIsSpace_jsCharToUpper, jsTrimList_idem,
    List.map_map]
  exact List.map_congr_left fun c _ => jsCharToUpper_idem c

/-! ### Configuration constants (App.jsx, "Config" section) -/

def DEFAULT_DURATION_MIN : ℚ := 70

def MAX_HINT_USES : ℚ := 3

/-- The designated free codes (`new Set(["E-00"])`). -/
def FREE_HINT_CODES : List String := ["E-00"]

def ADMIN_CODE : String := "ADMIN-2026"

/-! ### Data model -/

/-- A hint record: `{ title, body }`. -/
structure Hint where
  title : String
  body : String
deriving DecidableEq

/-- The hint dictionary, a JS object keyed by normalized code.  Modelled as an
association list in insertion order (the source only ever sorts it for
display). -/
abbrev HintDict := List (String × Hint)

/-- The seeded default dictionary from the `hints` initializer. -/
def defaultHints : HintDict :=
  [ ("E-00", ⟨"튜토리얼", "게임을 시작하지"⟩),
    ("E-01", ⟨"힌트 001", "정전 12분은 '침입'보다 '기록 혼선'에 의미가 있습니다."⟩),
    ("E-02", ⟨"힌트 002", "CCTV를 '보는 권한'과 '삭제/정책 변경 권한'은 다를 수 있습니다."⟩),
    ("E-03", ⟨"힌트 003", "출입기록은 ‘기기 로그’와 ‘관제 시스템’이 다를 수 있습니다."⟩),
    ("E-04", ⟨"힌트 004", "정전 구간의 '재부팅' 타이밍을 비교해 보세요."⟩),
    ("E-05", ⟨"힌트 005", "권한 변경은 보통 별도의 감사 로그로 남습니다."⟩),
    ("E-06", ⟨"힌트 006", "같은 시간대 다른 센서 이벤트와의 상관을 확인하세요."⟩),
    ("E-07", ⟨"힌트 007", "현장 행동보다 '기록의 불일치'가 단서일 수 있습니다."⟩),
    ("E-08", ⟨"힌트 008", "삭제된 구간이 아니라 '미기록' 구간인지 구분해야 합니다."⟩),
    ("E-09", ⟨"힌트 009", "로그의 timezone/서버시간 차이를 의심해 보세요."⟩),
    ("E-10", ⟨"힌트 010", "동일 계정의 동시 로그인/세션 수를 확인하세요."⟩),
    ("E-11", ⟨"힌트 011", "백업 정책 변경은 일정/승인 흔적이 남을 수 있습니다."⟩),
    ("E-12", ⟨"힌트 012", "알람 해제/재설정 이벤트가 있으면 그 전후를 확인하세요."⟩),
    ("E-13", ⟨"힌트 013", "‘정상’ 표시가 자동인지 수동인지 확인하세요."⟩),
    ("E-14", ⟨"힌트 014", "문서의 생성 시간과 수정 시간을 분리해서 보세요."⟩),
    ("E-15", ⟨"힌트 015", "카메라별 NTP 동기화 상태가 다를 수 있습니다."⟩),
    ("E-16", ⟨"힌트 016", "스케줄 작업(크론/자동화) 기록을 확인하세요."⟩),
    ("E-17", ⟨"힌트 017", "권한 부여자는 항상 동일하지 않습니다. 결재 라인을 추적해보세요."⟩),
    ("E-18", ⟨"힌트 018", "‘사람이 한 일’과 ‘시스템이 한 일’을 구분해 보세요."⟩) ]

def getHint (d : HintDict) (k : String) : Option Hint := d.lookup k

/-- JS computed-key spread `{ ...prev, [code]: v }`: replace the value in
place when the key exists, append otherwise. -/
def setHint (d : HintDict) (k : String) (v : Hint) : HintDict :=
  if d.any (fun p => p.1 = k) then
    d.map (fun p => if p.1 = k then (k, v) else p)
  else d ++ [(k, v)]

/-- JS `delete next[code]`. -/
def delHint (d : HintDict) (k : String) : HintDict :=
  d.filter (fun p => p.1 != k)

/-- The React state cells of `App` that the specification's components own.
Presentation-only cells (form input boxes, the hint-window URL parameters)
are passed to the handlers as arguments instead.  JS numbers are rationals,
`startAtMs` is `number | null`. -/
structure AppState where
  hints : HintDict
  hintUses : ℚ
  hintBonus : ℚ
  durationSec : ℚ
  running : Bool
  startAtMs : Option ℚ
  nowMs : ℚ
  adminMode : Bool
  adminAddRemaining : ℚ
deriving DecidableEq

/-- Derived limit: `maxHintUses = MAX_HINT_USES + hintBonus`. -/
def maxHintUses (s : AppState) : ℚ := MAX_HINT_USES + s.hintBonus

/-- Derived: `hintRemaining = maxHintUses - hintUses`. -/
def hintRemaining (s : AppState) : ℚ := maxHintUses s - s.hintUses

/-! ### Timer Engine -/

/-- JS `Math.max` on two (non-NaN) numbers. -/
def jsMax (a b : ℚ) : ℚ := if a ≤ b then b else a

/-- JS falsiness of `startAtMs : number | null`: `!startAtMs` is true for
`null` and for the number `0`. -/
def jsFalsyNum : Option ℚ → Bool
  | none => true
  | some q => q = 0

/-- The `remainingSec` memo:
`if (!running || !startAtMs) return durationSec;` then
`Math.max(0, durationSec - (nowMs - startAtMs) / 1000)`. -/
def remainingSec (s : AppState) : ℚ :=
  if !s.running || jsFalsyNum s.startAtMs then s.durationSec
  else jsMax 0 (s.durationSec - (s.nowMs - s.startAtMs.getD 0) / 1000)

/-- `handleStart`: no-op when already running, otherwise record the start
instant (`Date.now()`, passed in as `now`) and set `running`. -/
def handleStart (s : AppState) (now : ℚ) : AppState :=
  if s.running then s
  else { s with startAtMs := some now, nowMs := now, running := true }

/-- One firing of the 250 ms interval: `setNowMs(Date.now())`. -/
def tickSetNow (s : AppState) (t : ℚ) : AppState := { s with nowMs := t }

/-- The auto-stop effect: `if (running && remainingSec <= 0) { setRunning(false);
alert(...); }`.  The boolean is whether the one-shot "time expired" alert
fired. -/
def autoStop (s : AppState) : AppState × Bool :=
  if s.running ∧ remainingSec s ≤ 0 then ({ s with running := false }, true)
  else (s, false)

/-- A tick followed by the auto-stop effect re-running on the new state. -/
def tickAuto (s : AppState) (t : ℚ) : AppState × Bool := autoStop (tickSetNow s t)

/-- Iterate `tickAuto` over a list of tick instants, counting how many times
the "time expired" alert fired. -/
def runTicks (s : AppState) : List ℚ → AppState × ℕ
  | [] => (s, 0)
  | t :: rest =>
    let r := tickAuto s t
    let k := runTicks r.1 rest
    (k.1, (if r.2 then 1 else 0) + k.2)

/-- Whether `remainingSec` stayed non-negative after every tick of the run. -/
def ticksRemainNonneg (s : AppState) : List ℚ → Bool
  | [] => true
  | t :: rest =>
    let r := tickAuto s t
    decide (0 ≤ remainingSec r.1) && ticksRemainNonneg r.1 rest

/-! ### Hint Ledger: use -/

/-- The branch `handleUseHint` took: which `alert` fired, or the hint that was
opened in the popup. -/
inductive UseResult
  | opened (h : Hint)
  | emptyCode
  | notFound
  | quotaExceeded
deriving DecidableEq

/-- `handleUseHint`, with the text box contents passed in: normalize the code,
reject an empty or unknown code, open free codes without consuming a use,
otherwise enforce `hintUses >= maxHintUses` before incrementing. -/
def handleUseHint (s : AppState) (hintCodeInput : String) : AppState × UseResult :=
  let code := normalizeCode hintCodeInput
  if code = "" then (s, .emptyCode)
  else
    match getHint s.hints code with
    | none => (s, .notFound)
    | some hint =>
      if FREE_HINT_CODES.contains code then (s, .opened hint)
      else if maxHintUses s ≤ s.hintUses then (s, .quotaExceeded)
      else ({ s with hintUses := s.hintUses + 1 }, .opened hint)

def isOpened : UseResult → Bool
  | .opened _ => true
  | _ => false

/-- Run a sequence of `handleUseHint` calls, counting the successful (opened)
ones. -/
def runUses (s : AppState) : List String → AppState × ℕ
  | [] => (s, 0)
  | i :: rest =>
    let r := handleUseHint s i
    let k := runUses r.1 rest
    (k.1, (if isOpened r.2 then 1 else 0) + k.2)

/-! ### Admin Session -/

inductive LoginResult
  | granted
  | invalidCode
deriving DecidableEq

/-- `handleAdminLogin`: on `adminInput.trim() === ADMIN_CODE` grant a bonus
use, enter admin mode and reset the one-per-session add permit; otherwise
alert "invalid code" and change nothing. -/
def handleAdminLogin (s : AppState) (adminInput : String) : AppState × LoginResult :=
  if jsTrim adminInput = ADMIN_CODE then
    ({ s with hintBonus := s.hintBonus + 1, adminMode := true,
              adminAddRemaining := 1 }, .granted)
  else (s, .invalidCode)

inductive TopUpResult
  | granted
  | invalidCode
  | cancelled
deriving DecidableEq

/-- The bonus top-up button: `prompt` may be cancelled (`null`); on
`(code || "").trim() === ADMIN_CODE` only `hintBonus` is incremented. -/
def handleBonusTopUp (s : AppState) (promptResult : Option String) :
    AppState × TopUpResult :=
  match promptResult with
  | none => (s, .cancelled)
  | some code =>
    if jsTrim code = ADMIN_CODE then ({ s with hintBonus := s.hintBonus + 1 }, .granted)
    else (s, .invalidCode)

/-! ### Hint Ledger: add and delete -/

inductive AddResult
  | added
  | notAdmin
  | addQuotaExhausted
  | emptyCode
  | emptyTitle
  | emptyBody
  | duplicateCode
deriving DecidableEq

/-- `handleAddHint`, with the three form fields passed in.  The non-admin
guard is a bare `return` (no alert); the quota, empty-field and duplicate
failures each `alert`. -/
def handleAddHint (s : AppState) (newCode newTitle newBody : String) :
    AppState × AddResult :=
  if !s.adminMode then (s, .notAdmin)
  else if s.adminAddRemaining ≤ 0 then (s, .addQuotaExhausted)
  else
    let code := normalizeCode newCode
    if code = "" then (s, .emptyCode)
    else if jsTrim newTitle = "" then (s, .emptyTitle)
    else if jsTrim newBody = "" then (s, .emptyBody)
    else if (getHint s.hints code).isSome then (s, .duplicateCode)
    else
      ({ s with hints := setHint s.hints code ⟨jsTrim newTitle, jsTrim newBody⟩,
                adminAddRemaining := s.adminAddRemaining - 1 }, .added)

inductive DeleteResult
  | deleted
  | notAdmin
  | cancelled
deriving DecidableEq

/-- `handleDeleteHint`: silent `return` when not admin; `confirm` dialog
(passed in as `confirmed`) gates the destructive delete. -/
def handleDeleteHint (s : AppState) (code : String) (confirmed : Bool) :
    AppState × DeleteResult :=
  if !s.adminMode then (s, .notAdmin)
  else if !confirmed then (s, .cancelled)
  else ({ s with hints := delHint s.hints code }, .deleted)

/-! ### Which branches raise an `alert` in the source -/

def useRaisesAlert : UseResult → Bool
  | .opened _ => false
  | .emptyCode => true
  | .notFound => true
  | .quotaExceeded => true

def addRaisesAlert : AddResult → Bool
  | .added => false
  | .notAdmin => false
  | .addQuotaExhausted => true
  | .emptyCode => true
  | .emptyTitle => true
  | .emptyBody => true
  | .duplicateCode => true

def deleteRaisesAlert : DeleteResult → Bool
  | .deleted => false
  | .notAdmin => false
  | .cancelled => false

def loginRaisesAlert : LoginResult → Bool
  | .granted => true
  | .invalidCode => true

/-! ### The event step relation (every operator action plus the tick) -/

inductive Event
  | useHint (input : String)
  | adminLogin (input : String)
  | bonusTopUp (input : Option String)
  | addHint (code title body : String)
  | deleteHint (code : String) (confirmed : Bool)
  | adminLogout
  | startTimer (now : ℚ)
  | tick (now : ℚ)

/-- One state transition of the app.  All events but `tick` are triggered by
an operator action; `adminLogout` is the "admin mode off" button
(`setAdminMode(false)`). -/
def step (s : AppState) : Event → AppState
  | .useHint i => (handleUseHint s i).1
  | .adminLogin i => (handleAdminLogin s i).1
  | .bonusTopUp i => (handleBonusTopUp s i).1
  | .addHint c t b => (handleAddHint s c t b).1
  | .deleteHint c conf => (handleDeleteHint s c conf).1
  | .adminLogout => { s with adminMode := false }
  | .startTimer t => handleStart s t
  | .tick t => (tickAuto s t).1

/-! ### Startup loading of persisted slots -/

/-- A parsed JSON value as the timer-slot loader distinguishes them:
`Number.isFinite` accepts exactly finite numbers, `typeof v === "boolean"`
exactly booleans.  `NaN` and the infinities are one non-finite case. -/
inductive JsVal
  | num (q : ℚ)
  | nonFiniteNum
  | bool (b : Bool)
  | str (v : String)
  | null
deriving DecidableEq

/-- The parsed timer slot `{ durationSec, running, startAtMs }`; a missing
field is `none`. -/
structure TimerSlot where
  durationSec : Option JsVal
  running : Option JsVal
  startAtMs : Option JsVal
deriving DecidableEq

/-- JS `Number.isFinite` on a parsed field (absent fields are `undefined`,
which is not a finite number). -/
def jsIsFiniteNum : Option JsVal → Bool
  | some (.num _) => true
  | _ => false

/-- JS `typeof v === "boolean"` on a parsed field. -/
def jsIsBool : Option JsVal → Bool
  | some (.bool _) => true
  | _ => false

/-- The timer load effect: each field overrides the compiled-in default only
when it validates (`Number.isFinite` / `typeof === "boolean"`); `none` for
the whole slot is a missing or unparsable stored value
(`safeJsonParse` returned `null`, or the value was not an object). -/
def loadTimer (s : AppState) : Option TimerSlot → AppState
  | none => s
  | some t =>
    let s1 := match t.durationSec with
      | some (.num q) => { s with durationSec := q }
      | _ => s
    let s2 := match t.running with
      | some (.bool b) => { s1 with running := b }
      | _ => s1
    match t.startAtMs with
      | some (.num q) => { s2 with startAtMs := some q }
      | _ => s2

def digitsToNat (l : List Char) : ℕ :=
  l.foldl (fun a c => 10 * a + (c.toNat - 48)) 0

/-- JS `Number(string)` restricted to the decimal fragment the used-count
slot can hold: optional whitespace, optional sign, decimal digits with an
optional fractional part.  The empty (or all-whitespace) string is `0`;
every other shape (exponents, hex, `Infinity`, garbage) is a non-finite
result (`none`), which `Number.isFinite` rejects. -/
def jsNumberOfString (s : String) : Option ℚ :=
  let t := jsTrimList s.data
  if t.isEmpty then some 0
  else
    let sgn : ℚ := match t.head? with
      | some '-' => -1
      | _ => 1
    let body : List Char := match t with
      | '-' :: r => r
      | '+' :: r => r
      | r => r
    let ip := body.takeWhile Char.isDigit
    let rest := body.dropWhile Char.isDigit
    match rest with
    | [] => if ip.isEmpty then none else some (sgn * (digitsToNat ip : ℚ))
    | '.' :: fr =>
      if fr.all Char.isDigit && !(ip.isEmpty && fr.isEmpty) then
        some (sgn * ((digitsToNat ip : ℚ) + (digitsToNat fr : ℚ) / ((10 : ℚ) ^ fr.length)))
      else none
    | _ => none

/-- JS `Number(localStorage.getItem(...))`: a missing item is `null` and
`Number(null) = 0`, a finite number. -/
def jsNumberOfItem : Option String → Option ℚ
  | none => some 0
  | some s => jsNumberOfString s

/-- The `hintUses` initializer:
`Number.isFinite(saved) ? saved : 0` over `Number(localStorage.getItem(LS_USES))`. -/
def loadHintUses (item : Option String) : ℚ :=
  match jsNumberOfItem item with
  | some q => q
  | none => 0

/-! ### Behaviour of one `handleUseHint` call -/

theorem useHint_spec (s : AppState) (i : String) :
    (isOpened (handleUseHint s i).2 = false ∧ (handleUseHint s i).1 = s) ∨
    (isOpened (handleUseHint s i).2 = true ∧
      FREE_HINT_CODES.contains (normalizeCode i) = true ∧
      (handleUseHint s i).1 = s) ∨
    (isOpened (handleUseHint s i).2 = true ∧
      FREE_HINT_CODES.contains (normalizeCode i) = false ∧
      (handleUseHint s i).1 = { s with hintUses := s.hintUses + 1 }) := by
  by_cases h0 : normalizeCode i = ""
  · left
    simp [handleUseHint, h0, isOpened]
  · cases hh : getHint s.hints (normalizeCode i) with
    | none =>
      left
      simp [handleUseHint, h0, hh, isOpened]
    | some hint =>
      by_cases hf : FREE_HINT_CODES.contains (normalizeCode i)
      · have hf2 : normalizeCode i ∈ FREE_HINT_CODES := by simpa using hf
        right; left
        simp [handleUseHint, h0, hh, hf, hf2, isOpened]
      · have hf2 : normalizeCode i ∉ FREE_HINT_CODES := by simpa using hf
        by_cases hq : maxHintUses s ≤ s.hintUses
        · left
          simp [handleUseHint, h0, hh, hf2, hq, isOpened]
        · right; right
          simp [handleUseHint, h0, hh, hf2, hq, isOpened,
            Bool.not_eq_true _ |>.mp hf]

theorem useHint_fail_frame (s : AppState) (i : String)
    (h : isOpened (handleUseHint s i).2 = false) : (handleUseHint s i).1 = s := by
  rcases useHint_spec s i with ⟨_, hs⟩ | ⟨ho, _, hs⟩ | ⟨ho, _, _⟩
  · exact hs
  · exact hs
  · rw [h] at ho
    exact absurd ho (by simp)

theorem useHint_success_nonfree (s : AppState) (i : String)
    (hfree : FREE_HINT_CODES.contains (normalizeCode i) = false)
    (h : isOpened (handleUseHint s i).2 = true) :
    (handleUseHint s i).1 = { s with hintUses := s.hintUses + 1 } := by
  rcases useHint_spec s i with ⟨ho, _⟩ | ⟨_, hf, _⟩ | ⟨_, _, hs⟩
  · rw [h] at ho
    exact absurd ho (by simp)
  · rw [hfree] at hf
    exact absurd hf (by simp)
  · exact hs

theorem useHint_quota (s : AppState) (i : String) (h : Hint)
    (h0 : normalizeCode i ≠ "")
    (hfree : FREE_HINT_CODES.contains (normalizeCode i) = false)
    (hres : getHint s.hints (normalizeCode i) = some h)
    (hq : maxHintUses s ≤ s.hintUses) :
    handleUseHint s i = (s, .quotaExceeded) := by
  have hf2 : normalizeCode i ∉ FREE_HINT_CODES := by simpa using hfree
  simp [handleUseHint, h0, hres, hf2, hq]

/-! ### The quota ledger over sequences of uses -/

theorem runUses_hintUses (s : AppState) (l : List String)
    (hfree : ∀ i ∈ l, FREE_HINT_CODES.contains (normalizeCode i) = false) :
    (runUses s l).1.hintUses = s.hintUses + ((runUses s l).2 : ℚ) := by
  induction l generalizing s with
  | nil => simp [runUses]
  | cons i rest ih =>
    have hi := hfree i (by simp)
    have hrest : ∀ j ∈ rest, FREE_HINT_CODES.contains (normalizeCode j) = false :=
      fun j hj => hfree j (by simp [hj])
    simp only [runUses]
    cases ho : isOpened (handleUseHint s i).2 with
    | false =>
      rw [useHint_fail_frame s i ho, ih s hrest]
      simp
    | true =>
      rw [useHint_success_nonfree s i hi ho,
        ih { s with hintUses := s.hintUses + 1 } hrest]
      simp only [if_pos rfl]
      push_cast
      ring

/-! ### Free codes -/

theorem free_code_eq (c : String) (h : FREE_HINT_CODES.contains c = true) :
    c = "E-00" := by
  simpa [FREE_HINT_CODES, List.contains] using h

theorem useHint_free_frame (s : AppState) (i : String)
    (hf : FREE_HINT_CODES.contains (normalizeCode i) = true) :
    (handleUseHint s i).1 = s := by
  rcases useHint_spec s i with ⟨_, hs⟩ | ⟨_, _, hs⟩ | ⟨_, hnf, _⟩
  · exact hs
  · exact hs
  · rw [hf] at hnf
    exact absurd hnf (by simp)

theorem useHint_free_opened (s : AppState) (i : String) (h : Hint)
    (hf : FREE_HINT_CODES.contains (normalizeCode i) = true)
    (hres : getHint s.hints (normalizeCode i) = some h) :
    handleUseHint s i = (s, .opened h) := by
  have h0 : normalizeCode i ≠ "" := by
    rw [free_code_eq _ hf]
    decide
  have hf2 : normalizeCode i ∈ FREE_HINT_CODES := by simpa using hf
  simp [handleUseHint, h0, hres, hf2]

theorem runUses_free_frame (s : AppState) (l : List String)
    (hf : ∀ i ∈ l, FREE_HINT_CODES.contains (normalizeCode i) = true) :
    (runUses s l).1 = s := by
  induction l generalizing s with
  | nil => rfl
  | cons i rest ih =>
    simp only [runUses]
    rw [useHint_free_frame s i (hf i (by simp)),
      ih s (fun j hj => hf j (by simp [hj]))]

/-! ### Concrete states for the scenarios -/

/-- The state right after first load with nothing persisted: the `useState`
initializers of the source (seeded hints, zero uses and bonus, default
duration, timer idle, admin off).  `Date.now()` at mount is taken as a fixed
concrete instant. -/
def initialState : AppState :=
  { hints := defaultHints, hintUses := 0, hintBonus := 0,
    durationSec := DEFAULT_DURATION_MIN * 60, running := false,
    startAtMs := none, nowMs := 1700000000000, adminMode := false,
    adminAddRemaining := 0 }

/-- `initialState` with the base quota already consumed. -/
def stateAtQuota : AppState := { initialState with hintUses := 3 }

unseal Rat.add Rat.sub Rat.mul Rat.inv in
/-- Claim C1: over every sequence of `use` calls on non-free codes,
`usedCount` grows by exactly the number of successful calls; each successful
non-free use increments `usedCount` by exactly 1 and changes nothing else; a
non-free resolvable use with `usedCount ≥ maxUses` fails with the quota
alert and changes no state; and in the scenario with base max uses 3 and no
bonus, three uses of `E-01` take `usedCount` 0 → 1 → 2 → 3 and a fourth
fails with the quota alert leaving it at 3. -/
theorem C1_quota_ledger :
    (∀ (s : AppState) (l : List String),
        (∀ i ∈ l, FREE_HINT_CODES.contains (normalizeCode i) = false) →
        (runUses s l).1.hintUses = s.hintUses + ((runUses s l).2 : ℚ)) ∧
    (∀ (s : AppState) (i : String),
        FREE_HINT_CODES.contains (normalizeCode i) = false →
        isOpened (handleUseHint s i).2 = true →
        (handleUseHint s i).1 = { s with hintUses := s.hintUses + 1 }) ∧
    (∀ (s : AppState) (i : String) (h : Hint),
        normalizeCode i ≠ "" →
        FREE_HINT_CODES.contains (normalizeCode i) = false →
        getHint s.hints (normalizeCode i) = some h →
        maxHintUses s ≤ s.hintUses →
        handleUseHint s i = (s, .quotaExceeded)) ∧
    ((runUses initialState ["E-01"]).1.hintUses = 1 ∧
      (runUses initialState ["E-01", "E-01"]).1.hintUses = 2 ∧
      (runUses initialState ["E-01", "E-01", "E-01"]).1.hintUses = 3 ∧
      (runUses initialState ["E-01", "E-01", "E-01"]).2 = 3 ∧
      handleUseHint (runUses initialState ["E-01", "E-01", "E-01"]).1 "E-01"
        = ((runUses initialState ["E-01", "E-01", "E-01"]).1, .quotaExceeded)) :=
  ⟨runUses_hintUses, useHint_success_nonfree, useHint_quota, by decide⟩

unseal Rat.add Rat.sub Rat.mul Rat.inv in
/-- Witness for C1 at a concrete sequence. -/
theorem C1_quota_ledger_witness :
    (∀ i ∈ ["E-01", "E-09"], FREE_HINT_CODES.contains (normalizeCode i) = false) ∧
    (runUses initialState ["E-01", "E-09"]).1.hintUses
      = initialState.hintUses + ((runUses initialState ["E-01", "E-09"]).2 : ℚ) :=
  ⟨by decide, C1_quota_ledger.1 initialState ["E-01", "E-09"] (by decide)⟩

/-- Claim C2: a `use` call on a code of the designated free set never changes
the state (in particular `usedCount`), no matter how often it is repeated and
regardless of `usedCount` having reached `maxUses` (the state is universally
quantified); when the free code resolves, the call returns its hint record. -/
theorem C2_free_codes :
    (∀ (s : AppState) (i : String),
        FREE_HINT_CODES.contains (normalizeCode i) = true →
        (handleUseHint s i).1 = s) ∧
    (∀ (s : AppState) (i : String) (h : Hint),
        FREE_HINT_CODES.contains (normalizeCode i) = true →
        getHint s.hints (normalizeCode i) = some h →
        handleUseHint s i = (s, .opened h)) ∧
    (∀ (s : AppState) (l : List String),
        (∀ i ∈ l, FREE_HINT_CODES.contains (normalizeCode i) = true) →
        (runUses s l).1 = s) :=
  ⟨useHint_free_frame, useHint_free_opened, runUses_free_frame⟩

unseal Rat.add Rat.sub Rat.mul Rat.inv in
/-- Witness for C2: the free code `E-00` (typed in lower case) opens its
record without touching the state even though `usedCount` already equals
`maxUses`. -/
theorem C2_free_codes_witness :
    FREE_HINT_CODES.contains (normalizeCode "e-00") = true ∧
    getHint stateAtQuota.hints (normalizeCode "e-00")
      = some ⟨"튜토리얼", "게임을 시작하지"⟩ ∧
    handleUseHint stateAtQuota "e-00"
      = (stateAtQuota, .opened ⟨"튜토리얼", "게임을 시작하지"⟩) :=
  ⟨by decide, by decide,
    C2_free_codes.2.1 stateAtQuota "e-00" ⟨"튜토리얼", "게임을 시작하지"⟩
      (by decide) (by decide)⟩

/-! ### Behaviour of one `handleAddHint` call -/

theorem addHint_spec (s : AppState) (c t b : String) :
    ((handleAddHint s c t b).2 = .added ∧
      (handleAddHint s c t b).1 = { s with
        hints := setHint s.hints (normalizeCode c) ⟨jsTrim t, jsTrim b⟩,
        adminAddRemaining := s.adminAddRemaining - 1 } ∧
      s.adminMode = true ∧ ¬ s.adminAddRemaining ≤ 0 ∧
      getHint s.hints (normalizeCode c) = none ∧
      normalizeCode c ≠ "" ∧ jsTrim t ≠ "" ∧ jsTrim b ≠ "") ∨
    ((handleAddHint s c t b).2 ≠ .added ∧ (handleAddHint s c t b).1 = s) := by
  cases hA : s.adminMode with
  | false =>
    right
    simp [handleAddHint, hA]
  | true =>
    by_cases hq : s.adminAddRemaining ≤ 0
    · right
      simp [handleAddHint, hA, hq]
    · by_cases h0 : normalizeCode c = ""
      · right
        simp [handleAddHint, hA, hq, h0]
      · by_cases ht : jsTrim t = ""
        · right
          simp [handleAddHint, hA, hq, h0, ht]
        · by_cases hb : jsTrim b = ""
          · right
            simp [handleAddHint, hA, hq, h0, ht, hb]
          · cases hd : getHint s.hints (normalizeCode c) with
            | some hint =>
              right
              simp [handleAddHint, hA, hq, h0, ht, hb, hd]
            | none =>
              left
              simp [handleAddHint, hA, hq, h0, ht, hb, hd]

theorem addHint_fail_frame (s : AppState) (c t b : String)
    (h : (handleAddHint s c t b).2 ≠ .added) : (handleAddHint s c t b).1 = s := by
  rcases addHint_spec s c t b with ⟨ha, _⟩ | ⟨_, hs⟩
  · exact absurd ha h
  · exact hs

theorem addHint_notAdmin (s : AppState) (c t b : String)
    (hA : s.adminMode = false) : handleAddHint s c t b = (s, .notAdmin) := by
  simp [handleAddHint, hA]

theorem addHint_quotaExhausted (s : AppState) (c t b : String)
    (hA : s.adminMode = true) (hq : s.adminAddRemaining ≤ 0) :
    handleAddHint s c t b = (s, .addQuotaExhausted) := by
  simp [handleAddHint, hA, hq]

theorem deleteHint_notAdmin (s : AppState) (c : String) (conf : Bool)
    (hA : s.adminMode = false) : handleDeleteHint s c conf = (s, .notAdmin) := by
  simp [handleDeleteHint, hA]

theorem deleteHint_addRemaining (s : AppState) (c : String) (conf : Bool) :
    (handleDeleteHint s c conf).1.adminAddRemaining = s.adminAddRemaining := by
  unfold handleDeleteHint
  split
  · rfl
  · split <;> rfl

/-! ### The add permit stays 0 or 1 -/

/-- Run a sequence of events. -/
def runEvents (s : AppState) : List Event → AppState
  | [] => s
  | e :: rest => runEvents (step s e) rest

/-- The add permit only ever holds its two legal values. -/
def addPermitOk (s : AppState) : Prop :=
  s.adminAddRemaining = 0 ∨ s.adminAddRemaining = 1

theorem step_addPermitOk (s : AppState) (e : Event) (h : addPermitOk s) :
    addPermitOk (step s e) := by
  cases e with
  | useHint i =>
    rcases useHint_spec s i with ⟨_, hs⟩ | ⟨_, _, hs⟩ | ⟨_, _, hs⟩ <;>
      simp only [step, hs] <;> exact h
  | adminLogin i =>
    by_cases hc : jsTrim i = ADMIN_CODE
    · simp only [step, handleAdminLogin, if_pos hc]
      right
      rfl
    · simp only [step, handleAdminLogin, if_neg hc]
      exact h
  | bonusTopUp i =>
    cases i with
    | none => exact h
    | some c =>
      by_cases hc : jsTrim c = ADMIN_CODE
      · simp only [step, handleBonusTopUp, if_pos hc]
        exact h
      · simp only [step, handleBonusTopUp, if_neg hc]
        exact h
  | addHint c t b =>
    rcases addHint_spec s c t b with ⟨_, hs, _, hq, _⟩ | ⟨_, hs⟩
    · simp only [step, hs]
      rcases h with h0 | h1
      · exact absurd (le_of_eq h0) hq
      · left
        show s.adminAddRemaining - 1 = 0
        rw [h1]
        norm_num
    · simp only [step, hs]
      exact h
  | deleteHint c conf =>
    show addPermitOk (handleDeleteHint s c conf).1
    unfold addPermitOk
    rw [deleteHint_addRemaining]
    exact h
  | adminLogout => exact h
  | startTimer t =>
    show addPermitOk (handleStart s t)
    unfold handleStart addPermitOk
    split
    · exact h
    · exact h
  | tick t =>
    show addPermitOk (tickAuto s t).1
    unfold tickAuto autoStop tickSetNow addPermitOk
    split
    · exact h
    · exact h

theorem runEvents_addPermitOk (s : AppState) (es : List Event)
    (h : addPermitOk s) : addPermitOk (runEvents s es) := by
  induction es generalizing s with
  | nil => exact h
  | cons e rest ih => exact ih (step s e) (step_addPermitOk s e h)

/-- Claim C5: within one `LoggedIn` admin session at most one hint add
succeeds.  Logging in resets the add permit to exactly 1; a successful add
takes it from 1 to 0; with the permit spent (and still logged in) every
further add attempt fails with the once-per-session alert, mutating nothing
(in particular not the dictionary); and along every event sequence the permit
stays in {0, 1}, hence never drops below 0 or rises above 1. -/
theorem C5_add_once_per_session :
    (∀ (s : AppState) (i : String), jsTrim i = ADMIN_CODE →
        (handleAdminLogin s i).1.adminAddRemaining = 1) ∧
    (∀ (s : AppState) (c t b : String), s.adminAddRemaining = 1 →
        (handleAddHint s c t b).2 = .added →
        (handleAddHint s c t b).1.adminAddRemaining = 0) ∧
    (∀ (s : AppState) (c t b : String), s.adminMode = true →
        s.adminAddRemaining ≤ 0 →
        handleAddHint s c t b = (s, .addQuotaExhausted)) ∧
    (∀ (s : AppState) (es : List Event), addPermitOk s →
        addPermitOk (runEvents s es) ∧
        0 ≤ (runEvents s es).adminAddRemaining ∧
        (runEvents s es).adminAddRemaining ≤ 1) := by
  refine ⟨?_, ?_, addHint_quotaExhausted, ?_⟩
  · intro s i hc
    simp [handleAdminLogin, hc]
  · intro s c t b h1 hadd
    rcases addHint_spec s c t b with ⟨_, hs, _⟩ | ⟨hne, _⟩
    · rw [hs]
      show s.adminAddRemaining - 1 = 0
      rw [h1]
      norm_num
    · exact absurd hadd hne
  · intro s es h
    have hok := runEvents_addPermitOk s es h
    refine ⟨hok, ?_, ?_⟩ <;> rcases hok with h0 | h1
    · rw [h0]
    · rw [h1]
      norm_num
    · rw [h0]
      norm_num
    · rw [h1]

/-- The state of the C5 witness session: log in with the admin code, then
perform the one allowed add. -/
def spentSession : AppState :=
  (handleAddHint (handleAdminLogin initialState "ADMIN-2026").1
    "E-19" "추가 힌트" "추가 내용").1

unseal Rat.add Rat.sub Rat.mul Rat.inv in
/-- Witness for C5: after a login and one successful add, the permit is spent
and a second add in the same session fails with the once-per-session alert,
changing nothing. -/
theorem C5_add_once_per_session_witness :
    spentSession.adminMode = true ∧ spentSession.adminAddRemaining ≤ 0 ∧
    handleAddHint spentSession "E-20" "둘째" "본문"
      = (spentSession, .addQuotaExhausted) :=
  ⟨by decide, by decide,
    C5_add_once_per_session.2.2.1 spentSession "E-20" "둘째" "본문"
      (by decide) (by decide)⟩

/-! ### Admin login and bonus top-up -/

theorem adminLogin_granted (s : AppState) (i : String)
    (hc : jsTrim i = ADMIN_CODE) :
    handleAdminLogin s i
      = ({ s with hintBonus := s.hintBonus + 1, adminMode := true,
                  adminAddRemaining := 1 }, .granted) := by
  simp [handleAdminLogin, hc]

theorem adminLogin_invalid (s : AppState) (i : String)
    (hc : jsTrim i ≠ ADMIN_CODE) :
    handleAdminLogin s i = (s, .invalidCode) := by
  simp [handleAdminLogin, hc]

theorem topUp_granted (s : AppState) (c : String)
    (hc : jsTrim c = ADMIN_CODE) :
    handleBonusTopUp s (some c)
      = ({ s with hintBonus := s.hintBonus + 1 }, .granted) := by
  simp [handleBonusTopUp, hc]

unseal Rat.add Rat.sub Rat.mul Rat.inv in
/-- Counterexample to C4 as stated: the submitted code `" ADMIN-2026"` (with a
leading space) does not exactly match the shared secret, yet the login
succeeds and increments the bonus instead of failing with the invalid-code
alert, because the source compares `adminInput.trim()`. -/
theorem C4_counterexample :
    (" ADMIN-2026" : String) ≠ ADMIN_CODE ∧
    (handleAdminLogin initialState " ADMIN-2026").2 = .granted ∧
    (handleAdminLogin initialState " ADMIN-2026").1.hintBonus
      = initialState.hintBonus + 1 :=
  ⟨by decide, by decide, by decide⟩

/-- Claim C4 (amended): the comparison is on the trimmed submitted code.
When the trimmed code equals the shared secret, login sets `active`, resets
`addRemaining` to 1, and increments `bonusCount` by 1 (so `maxUses` grows by
1); when the trimmed code differs, login fails with the invalid-code alert
and changes no state.  A correct submission through the top-up path
increments `bonusCount` again while leaving `active` and `addRemaining`
unchanged. -/
theorem C4_admin_login :
    (∀ (s : AppState) (i : String), jsTrim i = ADMIN_CODE →
        handleAdminLogin s i
          = ({ s with hintBonus := s.hintBonus + 1, adminMode := true,
                      adminAddRemaining := 1 }, .granted) ∧
        maxHintUses (handleAdminLogin s i).1 = maxHintUses s + 1) ∧
    (∀ (s : AppState) (i : String), jsTrim i ≠ ADMIN_CODE →
        handleAdminLogin s i = (s, .invalidCode)) ∧
    (∀ (s : AppState) (c : String), jsTrim c = ADMIN_CODE →
        handleBonusTopUp s (some c)
          = ({ s with hintBonus := s.hintBonus + 1 }, .granted) ∧
        (handleBonusTopUp s (some c)).1.adminMode = s.adminMode ∧
        (handleBonusTopUp s (some c)).1.adminAddRemaining
          = s.adminAddRemaining) := by
  refine ⟨?_, adminLogin_invalid, ?_⟩
  · intro s i hc
    refine ⟨adminLogin_granted s i hc, ?_⟩
    rw [adminLogin_granted s i hc]
    show MAX_HINT_USES + (s.hintBonus + 1) = MAX_HINT_USES + s.hintBonus + 1
    ring
  · intro s c hc
    refine ⟨topUp_granted s c hc, ?_, ?_⟩ <;> rw [topUp_granted s c hc]

unseal Rat.add Rat.sub Rat.mul Rat.inv in
/-- Witness for C4 at a concrete login and top-up. -/
theorem C4_admin_login_witness :
    jsTrim " ADMIN-2026 " = ADMIN_CODE ∧
    handleAdminLogin initialState " ADMIN-2026 "
      = ({ initialState with hintBonus := initialState.hintBonus + 1,
                             adminMode := true, adminAddRemaining := 1 },
         .granted) ∧
    handleBonusTopUp (handleAdminLogin initialState " ADMIN-2026 ").1
        (some "ADMIN-2026")
      = ({ (handleAdminLogin initialState " ADMIN-2026 ").1 with
             hintBonus :=
               (handleAdminLogin initialState " ADMIN-2026 ").1.hintBonus + 1 },
         .granted) :=
  ⟨by decide,
    (C4_admin_login.1 initialState " ADMIN-2026 " (by decide)).1,
    (C4_admin_login.2.2 (handleAdminLogin initialState " ADMIN-2026 ").1
      "ADMIN-2026" (by decide)).1⟩

/-! ### Forbidden admin actions are silent no-ops -/

unseal Rat.add Rat.sub Rat.mul Rat.inv in
/-- Counterexample to C7 as stated: with the Admin Session inactive, an add
or delete attempt is rejected by a bare `return` — no alert fires — so the
failure is a silent no-op, not an explicit notification naming `Forbidden`. -/
theorem C7_counterexample :
    initialState.adminMode = false ∧
    handleAddHint initialState "E-19" "제목" "본문" = (initialState, .notAdmin) ∧
    addRaisesAlert (handleAddHint initialState "E-19" "제목" "본문").2 = false ∧
    handleDeleteHint initialState "E-01" true = (initialState, .notAdmin) ∧
    deleteRaisesAlert (handleDeleteHint initialState "E-01" true).2 = false :=
  ⟨by decide, by decide, by decide, by decide, by decide⟩

/-- Claim C7 (amended): when the Admin Session is not active, an attempted
add or remove is rejected by a guard that returns early with no notification
(a silent no-op), leaving the state — in particular the dictionary —
unchanged.  Every other user-triggered validation failure of add and use
(quota, empty fields, duplicate code, unknown code, invalid admin code) does
raise an explicit alert naming the condition, and every failing add leaves
the dictionary unchanged. -/
theorem C7_forbidden_silent :
    (∀ (s : AppState) (c t b : String), s.adminMode = false →
        handleAddHint s c t b = (s, .notAdmin) ∧
        addRaisesAlert (handleAddHint s c t b).2 = false) ∧
    (∀ (s : AppState) (c : String) (conf : Bool), s.adminMode = false →
        handleDeleteHint s c conf = (s, .notAdmin) ∧
        deleteRaisesAlert (handleDeleteHint s c conf).2 = false) ∧
    (∀ (s : AppState) (c t b : String), (handleAddHint s c t b).2 ≠ .added →
        (handleAddHint s c t b).1 = s) ∧
    (∀ r : AddResult, r ≠ .added → r ≠ .notAdmin → addRaisesAlert r = true) ∧
    (∀ r : UseResult, isOpened r = false → useRaisesAlert r = true) ∧
    loginRaisesAlert .invalidCode = true := by
  refine ⟨?_, ?_, addHint_fail_frame, ?_, ?_, rfl⟩
  · intro s c t b hA
    rw [addHint_notAdmin s c t b hA]
    exact ⟨rfl, rfl⟩
  · intro s c conf hA
    rw [deleteHint_notAdmin s c conf hA]
    exact ⟨rfl, rfl⟩
  · intro r h1 h2
    cases r <;> first | rfl | exact absurd rfl h1 | exact absurd rfl h2
  · intro r h
    cases r
    case opened h2 => simp [isOpened] at h
    all_goals rfl

unseal Rat.add Rat.sub Rat.mul Rat.inv in
/-- Witness for C7 at a concrete non-admin state. -/
theorem C7_forbidden_silent_witness :
    initialState.adminMode = false ∧
    (handleAddHint initialState "E-20" "제목" "본문" = (initialState, .notAdmin) ∧
      addRaisesAlert (handleAddHint initialState "E-20" "제목" "본문").2 = false) :=
  ⟨by decide, C7_forbidden_silent.1 initialState "E-20" "제목" "본문" (by decide)⟩

/-! ### Duplicate codes and empty fields on add -/

/-- Claim C6: an authorized add attempt (admin active, permit available,
all three fields non-empty after trimming) whose normalized code already
keys an entry always fails with the duplicate-code alert and leaves the
state — dictionary and `addRemaining` included — unchanged; and an add
attempt with any field empty after trimming fails without mutation with the
matching empty-field alert. -/
theorem C6_duplicate_add :
    (∀ (s : AppState) (c t b : String) (h : Hint), s.adminMode = true →
        0 < s.adminAddRemaining →
        normalizeCode c ≠ "" → jsTrim t ≠ "" → jsTrim b ≠ "" →
        getHint s.hints (normalizeCode c) = some h →
        handleAddHint s c t b = (s, .duplicateCode)) ∧
    (∀ (s : AppState) (c t b : String), s.adminMode = true →
        0 < s.adminAddRemaining →
        (normalizeCode c = "" ∨ jsTrim t = "" ∨ jsTrim b = "") →
        (handleAddHint s c t b).1 = s ∧
        ((handleAddHint s c t b).2 = .emptyCode ∨
          (handleAddHint s c t b).2 = .emptyTitle ∨
          (handleAddHint s c t b).2 = .emptyBody)) := by
  constructor
  · intro s c t b h hA hq h0 ht hb hd
    simp [handleAddHint, hA, not_le.mpr hq, h0, ht, hb, hd]
  · intro s c t b hA hq hemp
    by_cases h0 : normalizeCode c = ""
    · simp [handleAddHint, hA, not_le.mpr hq, h0]
    · by_cases ht : jsTrim t = ""
      · simp [handleAddHint, hA, not_le.mpr hq, h0, ht]
      · by_cases hb : jsTrim b = ""
        · simp [handleAddHint, hA, not_le.mpr hq, h0, ht, hb]
        · rcases hemp with h | h | h
          · exact absurd h h0
          · exact absurd h ht
          · exact absurd h hb

unseal Rat.add Rat.sub Rat.mul Rat.inv in
/-- Witness for C6: in a fresh admin session, adding under code `" e-01 "`
(normalizing to the existing key `E-01`) fails with the duplicate-code alert
and changes nothing. -/
theorem C6_duplicate_add_witness :
    (handleAdminLogin initialState "ADMIN-2026").1.adminMode = true ∧
    getHint (handleAdminLogin initialState "ADMIN-2026").1.hints
        (normalizeCode " e-01 ")
      = some ⟨"힌트 001", "정전 12분은 '침입'보다 '기록 혼선'에 의미가 있습니다."⟩ ∧
    handleAddHint (handleAdminLogin initialState "ADMIN-2026").1
        " e-01 " "제목" "본문"
      = ((handleAdminLogin initialState "ADMIN-2026").1, .duplicateCode) :=
  ⟨by decide, by decide,
    C6_duplicate_add.1 (handleAdminLogin initialState "ADMIN-2026").1
      " e-01 " "제목" "본문"
      ⟨"힌트 001", "정전 12분은 '침입'보다 '기록 혼선'에 의미가 있습니다."⟩
      (by decide) (by decide) (by decide) (by decide) (by decide) (by decide)⟩

/-! ### The remaining-time function (C3) -/

theorem jsMax_zero_nonneg (x : ℚ) : 0 ≤ jsMax 0 x := by
  unfold jsMax
  split
  · assumption
  · exact le_refl 0

theorem jsMax_zero_mono (x y : ℚ) (h : x ≤ y) : jsMax 0 x ≤ jsMax 0 y := by
  unfold jsMax
  split <;> split
  · exact h
  · linarith
  · assumption
  · linarith

/-- Timer state with running true but `startAtMs = 0`, which JS treats as
falsy: reachable by loading a stored timer slot holding these values. -/
def zeroStartState : AppState :=
  { hints := defaultHints, hintUses := 0, hintBonus := 0, durationSec := 60,
    running := true, startAtMs := some 0, nowMs := 1000000, adminMode := false,
    adminAddRemaining := 0 }

/-- Idle timer state with a (corrupt, storage-loadable) negative duration. -/
def negDurationState : AppState :=
  { hints := defaultHints, hintUses := 0, hintBonus := 0, durationSec := -1,
    running := false, startAtMs := none, nowMs := 0, adminMode := false,
    adminAddRemaining := 0 }

unseal Rat.add Rat.sub Rat.mul Rat.inv in
/-- Counterexample to C3 as stated: with `running = true` and `startEpochMs`
present (the number 0) and ≤ now, the code returns `durationSeconds` (60),
not max(0, durationSeconds − (now − startEpochMs)/1000) = 0, because
`!startAtMs` treats the number 0 as absent; and with `running = false` and a
negative stored `durationSeconds`, `remaining()` is negative. -/
theorem C3_counterexample :
    (zeroStartState.running = true ∧ zeroStartState.startAtMs = some 0 ∧
      (0 : ℚ) ≤ zeroStartState.nowMs ∧
      remainingSec zeroStartState = 60 ∧
      jsMax 0 (zeroStartState.durationSec - (zeroStartState.nowMs - 0) / 1000)
        = 0) ∧
    (negDurationState.running = false ∧ remainingSec negDurationState = -1 ∧
      remainingSec negDurationState < 0) :=
  ⟨⟨by decide, by decide, by decide, by decide, by decide⟩,
    ⟨by decide, by decide, by decide⟩⟩

/-- Claim C3 (amended): `remaining()` is a pure function of the timer state
and the passed-in clock.  It equals `durationSeconds` whenever `running` is
false; when `running` is true and `startEpochMs` is present and nonzero (the
code's falsiness test treats the number 0 as absent), it equals
max(0, durationSeconds − (now − startEpochMs)/1000) and is non-negative;
whenever `durationSeconds` is non-negative it is non-negative in every
state; and with the rest of the state fixed it is monotonically
non-increasing as the clock advances. -/
theorem C3_remaining_derived :
    (∀ s : AppState, s.running = false → remainingSec s = s.durationSec) ∧
    (∀ (s : AppState) (q : ℚ), s.running = true → s.startAtMs = some q →
        q ≠ 0 →
        remainingSec s = jsMax 0 (s.durationSec - (s.nowMs - q) / 1000) ∧
        0 ≤ remainingSec s) ∧
    (∀ s : AppState, 0 ≤ s.durationSec → 0 ≤ remainingSec s) ∧
    (∀ (s : AppState) (t1 t2 : ℚ), t1 ≤ t2 →
        remainingSec { s with nowMs := t2 }
          ≤ remainingSec { s with nowMs := t1 }) := by
  refine ⟨?_, ?_, ?_, ?_⟩
  · intro s h
    simp [remainingSec, h]
  · intro s q hr hst hq
    have hfalsy : jsFalsyNum s.startAtMs = false := by
      rw [hst]
      simp [jsFalsyNum, hq]
    have heq : remainingSec s = jsMax 0 (s.durationSec - (s.nowMs - q) / 1000) := by
      unfold remainingSec
      rw [hr, hfalsy, hst]
      simp
    exact ⟨heq, heq ▸ jsMax_zero_nonneg _⟩
  · intro s h
    unfold remainingSec
    split
    · exact h
    · exact jsMax_zero_nonneg _
  · intro s t1 t2 h
    unfold remainingSec
    by_cases hc : (!s.running || jsFalsyNum s.startAtMs) = true
    · rw [if_pos hc, if_pos hc]
    · rw [if_neg hc, if_neg hc]
      apply jsMax_zero_mono
      have hdiv : (t1 - s.startAtMs.getD 0) / 1000
          ≤ (t2 - s.startAtMs.getD 0) / 1000 :=
        (div_le_div_iff_of_pos_right (by norm_num : (0 : ℚ) < 1000)).mpr
          (by linarith)
      simp only
      linarith

/-- Timer started from the initial state at a concrete epoch instant. -/
def runningState : AppState := handleStart initialState 1700000000000

unseal Rat.add Rat.sub Rat.mul Rat.inv in
/-- Witness for C3 on a concretely started timer. -/
theorem C3_remaining_derived_witness :
    runningState.running = true ∧
    runningState.startAtMs = some 1700000000000 ∧
    (1700000000000 : ℚ) ≠ 0 ∧
    (remainingSec runningState
        = jsMax 0 (runningState.durationSec
            - (runningState.nowMs - 1700000000000) / 1000) ∧
      0 ≤ remainingSec runningState) :=
  ⟨by decide, by decide, by decide,
    C3_remaining_derived.2.1 runningState 1700000000000
      (by decide) (by decide) (by decide)⟩

/-! ### Timer expiry scenario (C8) -/

/-- Timer with `durationSeconds = 60`, started at a concrete epoch. -/
def timer60 : AppState :=
  handleStart { initialState with durationSec := 60 } 1700000000000

/-- 61 simulated one-second ticks after the start. -/
def ticks61 : List ℚ :=
  (List.range 61).map (fun k => 1700000000000 + 1000 * ((k : ℚ) + 1))

unseal Rat.add Rat.sub Rat.mul Rat.inv in
set_option maxRecDepth 8000 in
set_option maxHeartbeats 1000000 in
/-- Counterexample to C8 as stated: after the 61 simulated seconds the timer
has auto-stopped, and `remaining()` then returns the full `durationSeconds`
(60), not 0 — the non-running branch of the derivation returns
`durationSec`. -/
theorem C8_counterexample :
    (runTicks timer60 ticks61).1.running = false ∧
    remainingSec (runTicks timer60 ticks61).1 = 60 ∧
    remainingSec (runTicks timer60 ticks61).1 ≠ 0 :=
  ⟨by decide, by decide, by decide⟩

theorem tickAuto_stopped (s : AppState) (t : ℚ) (h : s.running = false) :
    tickAuto s t = ({ s with nowMs := t }, false) := by
  unfold tickAuto autoStop tickSetNow
  rw [if_neg]
  intro hc
  rw [h] at hc
  exact Bool.false_ne_true hc.1

unseal Rat.add Rat.sub Rat.mul Rat.inv in
set_option maxRecDepth 8000 in
set_option maxHeartbeats 1000000 in
/-- Claim C8 (amended): for the timer started with `durationSeconds = 60`,
over 61 simulated seconds of ticks `running` transitions to false exactly
once and the one-shot "time expired" alert fires exactly once; at the moment
of expiry (the tick at 60 s, while still running) `remaining()` is 0, and it
is never negative throughout the run; after the auto-stop `remaining()`
returns `durationSeconds` (60), the derived value for a non-running timer,
not 0.  Once `running` is false a tick changes only the clock and never
fires the alert again, and a tick never touches any state but the clock and
the running flag — the auto-stop is the only non-user-triggered
transition. -/
theorem C8_timer_expiry :
    ((runTicks timer60 ticks61).1.running = false ∧
      (runTicks timer60 ticks61).2 = 1 ∧
      ticksRemainNonneg timer60 ticks61 = true ∧
      remainingSec (tickSetNow timer60 1700000060000) = 0 ∧
      remainingSec (runTicks timer60 ticks61).1
        = (runTicks timer60 ticks61).1.durationSec) ∧
    (∀ (s : AppState) (t : ℚ), s.running = false →
        tickAuto s t = ({ s with nowMs := t }, false)) ∧
    (∀ (s : AppState) (t : ℚ),
        (tickAuto s t).1.hints = s.hints ∧
        (tickAuto s t).1.hintUses = s.hintUses ∧
        (tickAuto s t).1.hintBonus = s.hintBonus ∧
        (tickAuto s t).1.durationSec = s.durationSec ∧
        (tickAuto s t).1.startAtMs = s.startAtMs ∧
        (tickAuto s t).1.adminMode = s.adminMode ∧
        (tickAuto s t).1.adminAddRemaining = s.adminAddRemaining) := by
  refine ⟨⟨by decide, by decide, by decide, by decide, by decide⟩,
    tickAuto_stopped, ?_⟩
  intro s t
  unfold tickAuto autoStop tickSetNow
  split <;> exact ⟨rfl, rfl, rfl, rfl, rfl, rfl, rfl⟩

unseal Rat.add Rat.sub Rat.mul Rat.inv in
/-- Witness for C8: a stopped timer's tick only moves the clock and cannot
fire the alert again. -/
theorem C8_timer_expiry_witness :
    initialState.running = false ∧
    tickAuto initialState 1700000099000
      = ({ initialState with nowMs := 1700000099000 }, false) :=
  ⟨by decide, C8_timer_expiry.2.1 initialState 1700000099000 (by decide)⟩

/-! ### Startup recovery from persisted slots (C9) -/

theorem loadTimer_eq (s : AppState) (d r a : Option JsVal) :
    loadTimer s (some ⟨d, r, a⟩) =
      { s with
        durationSec := match d with | some (.num q) => q | _ => s.durationSec,
        running := match r with | some (.bool b) => b | _ => s.running,
        startAtMs := match a with | some (.num q) => some q | _ => s.startAtMs } := by
  unfold loadTimer
  rcases d with - | (q | - | b | v | -) <;>
    rcases r with - | (q2 | - | b2 | v2 | -) <;>
      rcases a with - | (q3 | - | b3 | v3 | -) <;> rfl

theorem loadTimer_fields (s : AppState) (t : TimerSlot) :
    ((∀ q : ℚ, t.durationSec = some (.num q) →
        (loadTimer s (some t)).durationSec = q) ∧
      (jsIsFiniteNum t.durationSec = false →
        (loadTimer s (some t)).durationSec = s.durationSec)) ∧
    ((∀ b : Bool, t.running = some (.bool b) →
        (loadTimer s (some t)).running = b) ∧
      (jsIsBool t.running = false →
        (loadTimer s (some t)).running = s.running)) ∧
    ((∀ q : ℚ, t.startAtMs = some (.num q) →
        (loadTimer s (some t)).startAtMs = some q) ∧
      (jsIsFiniteNum t.startAtMs = false →
        (loadTimer s (some t)).startAtMs = s.startAtMs)) := by
  rcases t with ⟨d, r, a⟩
  rw [loadTimer_eq]
  refine ⟨⟨?_, ?_⟩, ⟨?_, ?_⟩, ⟨?_, ?_⟩⟩
  · intro q hq
    cases hq
    rfl
  · intro hf
    rcases d with - | (q | - | b | v | -) <;>
      first | rfl | (simp [jsIsFiniteNum] at hf)
  · intro b hb
    cases hb
    rfl
  · intro hf
    rcases r with - | (q | - | b | v | -) <;>
      first | rfl | (simp [jsIsBool] at hf)
  · intro q hq
    cases hq
    rfl
  · intro hf
    rcases a with - | (q | - | b | v | -) <;>
      first | rfl | (simp [jsIsFiniteNum] at hf)

unseal Rat.add Rat.sub Rat.mul Rat.inv in
/-- Counterexample to C9 as stated: the stored used-count string `"-5"`
parses to the finite number −5, which `Number.isFinite` accepts, so the
loaded `usedCount` is −5 — negative, not a non-negative integer; `"2.5"`
similarly loads the fractional value 5/2. -/
theorem C9_counterexample :
    loadHintUses (some "-5") = -5 ∧ loadHintUses (some "-5") < 0 ∧
    loadHintUses (some "2.5") = 5 / 2 :=
  ⟨by decide, by decide, by decide⟩

/-- Claim C9 (amended): startup recovers from a corrupt slot by falling back
to the compiled-in default for that slot (or field) only.  The timer slot is
validated field-by-field: a field that is a finite number (for the two
numeric fields) or a boolean (for `running`) overrides the default, any
other field — absent, non-numeric, non-finite, non-boolean — keeps its
default, and a missing or unparsable slot keeps the state unchanged.  The
used-count slot is validated only by `Number.isFinite`: any string parsing
to a finite number loads that exact value, including negative or fractional
ones, and the value defaults to 0 exactly when the parse is not finite (a
missing item, `Number(null) = 0`, also loads 0). -/
theorem C9_storage_recovery :
    (∀ s : AppState, loadTimer s none = s) ∧
    (∀ (s : AppState) (t : TimerSlot),
        ((∀ q : ℚ, t.durationSec = some (.num q) →
            (loadTimer s (some t)).durationSec = q) ∧
          (jsIsFiniteNum t.durationSec = false →
            (loadTimer s (some t)).durationSec = s.durationSec)) ∧
        ((∀ b : Bool, t.running = some (.bool b) →
            (loadTimer s (some t)).running = b) ∧
          (jsIsBool t.running = false →
            (loadTimer s (some t)).running = s.running)) ∧
        ((∀ q : ℚ, t.startAtMs = some (.num q) →
            (loadTimer s (some t)).startAtMs = some q) ∧
          (jsIsFiniteNum t.startAtMs = false →
            (loadTimer s (some t)).startAtMs = s.startAtMs))) ∧
    (∀ (item : Option String) (q : ℚ), jsNumberOfItem item = some q →
        loadHintUses item = q) ∧
    (∀ item : Option String, jsNumberOfItem item = none →
        loadHintUses item = 0) ∧
    loadHintUses none = 0 := by
  refine ⟨fun s => rfl, loadTimer_fields, ?_, ?_, rfl⟩
  · intro item q h
    unfold loadHintUses
    rw [h]
  · intro item h
    unfold loadHintUses
    rw [h]

unseal Rat.add Rat.sub Rat.mul Rat.inv in
/-- Witness for C9: a timer slot with a finite stored duration, a boolean
running flag and a `null` start timestamp overrides exactly the first two
fields, and a garbage used-count string falls back to 0. -/
theorem C9_storage_recovery_witness :
    (TimerSlot.mk (some (.num 90)) (some (.bool true)) (some .null)).durationSec
      = some (.num 90) ∧
    (loadTimer initialState
        (some ⟨some (.num 90), some (.bool true), some .null⟩)).durationSec = 90 ∧
    jsIsFiniteNum (TimerSlot.mk (some (.num 90)) (some (.bool true))
        (some .null)).startAtMs = false ∧
    (loadTimer initialState
        (some ⟨some (.num 90), some (.bool true), some .null⟩)).startAtMs
      = initialState.startAtMs ∧
    jsNumberOfItem (some "abc") = none ∧
    loadHintUses (some "abc") = 0 :=
  ⟨by decide,
    (C9_storage_recovery.2.1 initialState
      ⟨some (.num 90), some (.bool true), some .null⟩).1.1 90 (by decide),
    by decide,
    (C9_storage_recovery.2.1 initialState
      ⟨some (.num 90), some (.bool true), some .null⟩).2.2.2 (by decide),
    by decide,
    C9_storage_recovery.2.2.2.1 (some "abc") (by decide)⟩

/-! ### Code normalization (C10) -/

/-- Claim C10: `normalizeCode` is idempotent; the key inserted by a
successful admin add is the normalized form of the typed code (hence itself
already normalized); `use` depends on its input only through
`normalizeCode`, so inputs with the same normalization — in particular those
differing only in surrounding whitespace or letter case — resolve the same
dictionary key and behave identically. -/
theorem C10_normalization :
    (∀ s : String, normalizeCode (normalizeCode s) = normalizeCode s) ∧
    (∀ (s : AppState) (c t b : String), (handleAddHint s c t b).2 = .added →
        (handleAddHint s c t b).1.hints
          = setHint s.hints (normalizeCode c) ⟨jsTrim t, jsTrim b⟩ ∧
        normalizeCode (normalizeCode c) = normalizeCode c) ∧
    (∀ (s : AppState) (i j : String), normalizeCode i = normalizeCode j →
        handleUseHint s i = handleUseHint s j) ∧
    (∀ (i : String) (w1 w2 : List Char),
        (∀ c ∈ w1, jsIsSpace c = true) → (∀ c ∈ w2, jsIsSpace c = true) →
        normalizeCode ⟨w1 ++ i.data ++ w2⟩ = normalizeCode i) ∧
    (∀ i j : String, i.data.map jsCharToUpper = j.data.map jsCharToUpper →
        normalizeCode i = normalizeCode j) := by
  refine ⟨normalizeCode_idem, ?_, ?_, ?_, ?_⟩
  · intro s c t b hadd
    rcases addHint_spec s c t b with ⟨-, hs, -⟩ | ⟨hne, -⟩
    · rw [hs]
      exact ⟨rfl, normalizeCode_idem c⟩
    · exact absurd hadd hne
  · intro s i j h
    unfold handleUseHint
    rw [h]
  · intro i w1 w2 h1 h2
    unfold normalizeCode
    rw [jsTrimList_pad w1 w2 i.data h1 h2]
  · intro i j h
    unfold normalizeCode
    congr 1
    rw [← jsTrimList_map jsCharToUpper jsIsSpace_jsCharToUpper i.data, h,
      jsTrimList_map jsCharToUpper jsIsSpace_jsCharToUpper j.data]

unseal Rat.add Rat.sub Rat.mul Rat.inv in
/-- Witness for C10: two inputs differing in case and surrounding whitespace
normalize alike and drive `use` identically. -/
theorem C10_normalization_witness :
    normalizeCode "  e-00" = normalizeCode "E-00  " ∧
    handleUseHint initialState "  e-00" = handleUseHint initialState "E-00  " :=
  ⟨by decide,
    C10_normalization.2.2.1 initialState "  e-00" "E-00  " (by decide)⟩

end EscapeRoom
